import Mathlib

/-
Verification of the Advertisements API (src/main.py, src/models.py).

Modelling choices for the shallow embedding:
* Text (Python `str`) is `List Char`; `str.lower()` is a character-wise
  `Char.toLower` map and Python's substring operator `in` is `containsSub`.
* `price` (a Python float used only for comparisons) is `Rat`.
* `uuid4()` id generation is modelled by a fresh-id counter `nextId` carried in
  the store state: every issued id equals the counter at issue time, so under
  the store invariant an issued id was never issued before.
* `datetime.now(timezone.utc)` is an explicit `now : Nat` parameter of the
  create operation.
* The SQLAlchemy session over the `advertisement` table is a list of rows
  (`DB.rows`); `select ... where id == x` with `scalar_one_or_none` is
  `List.find?`, `session.add` of a new object plus `commit` appends a row,
  in-place mutation of a fetched row plus `commit` replaces it by id, and
  `session.delete` removes it.
* Python attribute access that can raise (`None.lower()`, `None >= x`) and
  pydantic response-model validation are modelled in `Except Unit`; an
  uncaught exception surfaces as `Response.serverError`.
* FastAPI/pydantic request validation runs before the handler body: the
  `postAdvertisement` / `patchAdvertisement` / `searchEndpoint` wrappers
  return `Response.validationError` without touching the store, exactly when
  pydantic would reject the payload (missing required field, negative price).
-/

namespace AdvertisementsAPI

/-- Python strings as lists of characters. -/
abbrev Str := List Char

/-- `str.lower()`: character-wise lowering. -/
def lowerStr (s : Str) : Str := s.map Char.toLower

/-- Helper for `containsSub`: does `hay` start with `needle`? -/
def startsWithList : Str → Str → Bool
  | [], _ => true
  | _ :: _, [] => false
  | a :: as, b :: bs => a == b && startsWithList as bs

/-- Python's substring test `needle in hay`. -/
def containsSub (needle : Str) : Str → Bool
  | [] => startsWithList needle []
  | h :: t => startsWithList needle (h :: t) || containsSub needle t

/-- A row of the `advertisement` table / an `AdvertisementORM` instance.
Python object attributes can hold `None` (e.g. after a PATCH with an explicit
null), so each data field is an `Option`. -/
structure AdvertisementORM where
  id : Nat
  title : Option Str
  description : Option Str
  price : Option Rat
  author : Option Str
  created_at : Nat
  deriving DecidableEq, Repr

/-- The pydantic `Advertisement` output model: all fields required. -/
structure Advertisement where
  id : Nat
  title : Str
  description : Str
  price : Rat
  author : Str
  created_at : Nat
  deriving DecidableEq, Repr

/-- `orm_to_pydantic` (src/main.py lines 34-42): building the pydantic
`Advertisement` from an ORM object; pydantic rejects a `None` in any of the
required fields (`none` result = ValidationError raised). -/
def orm_to_pydantic (ad : AdvertisementORM) : Option Advertisement :=
  match ad.title, ad.description, ad.price, ad.author with
  | some t, some d, some p, some a =>
      some { id := ad.id, title := t, description := d, price := p,
             author := a, created_at := ad.created_at }
  | _, _, _, _ => none

/-- A raw JSON body for POST /advertisement: each field present or absent.
(An explicit JSON null for a required field is rejected by pydantic exactly
like an absent field, so both are `none` here.) -/
structure RawCreate where
  title : Option Str
  description : Option Str
  price : Option Rat
  author : Option Str
  deriving DecidableEq, Repr

/-- The validated `AdvertisementCreate` model (src/main.py lines 14-18):
all four fields required, price `ge=0`. -/
structure AdvertisementCreate where
  title : Str
  description : Str
  price : Rat
  author : Str
  deriving DecidableEq, Repr

/-- Pydantic validation of a POST body against `AdvertisementCreate`:
fails iff a required field is missing or the price is negative. -/
def parseCreate (raw : RawCreate) : Except Unit AdvertisementCreate :=
  match raw.title, raw.description, raw.price, raw.author with
  | some t, some d, some p, some a =>
      if p < 0 then .error () else .ok ⟨t, d, p, a⟩
  | _, _, _, _ => .error ()

/-- The `AdvertisementUpdate` model (src/main.py lines 20-24) with pydantic
"fields set" tracking: outer `Option` = field present in the JSON body
(set) or absent (unset), inner `Option` = explicit null or a value. -/
structure AdvertisementUpdate where
  title : Option (Option Str) := none
  description : Option (Option Str) := none
  price : Option (Option Rat) := none
  author : Option (Option Str) := none
  deriving DecidableEq, Repr

/-- Pydantic validation of a PATCH body: the only constraint is `ge=0` on a
supplied non-null price (pydantic skips the `ge` check on an explicit null). -/
def parseUpdate (raw : AdvertisementUpdate) : Except Unit AdvertisementUpdate :=
  match raw.price with
  | some (some p) => if p < 0 then .error () else .ok raw
  | _ => .ok raw

/-- The merge loop of `update_advertisement` (src/main.py lines 90-92):
`update_data = ad_update.dict(exclude_unset=True)` followed by `setattr` for
each present key. An unset field leaves the attribute alone; a field set to an
explicit null stores `none`. `id` and `created_at` are not part of the payload
and are never touched. -/
def applyUpdate (u : AdvertisementUpdate) (r : AdvertisementORM) : AdvertisementORM :=
  { r with
    title := match u.title with | none => r.title | some v => v
    description := match u.description with | none => r.description | some v => v
    price := match u.price with | none => r.price | some v => v
    author := match u.author with | none => r.author | some v => v }

/-- The relational store: the `advertisement` table as a list of rows, plus
the fresh-id counter standing for `uuid4()`. -/
structure DB where
  rows : List AdvertisementORM
  nextId : Nat
  deriving DecidableEq, Repr

def DB.empty : DB := ⟨[], 0⟩

/-- `select(AdvertisementORM).where(AdvertisementORM.id == id)` followed by
`scalar_one_or_none()`. -/
def findRow (db : DB) (id : Nat) : Option AdvertisementORM :=
  db.rows.find? (fun r => r.id == id)

/-- Store invariant: every stored id was issued by the counter (is below it)
and ids are pairwise distinct (the primary key). It holds of the empty store
and is preserved by every operation. -/
def DB.inv (db : DB) : Prop :=
  (∀ r ∈ db.rows, r.id < db.nextId) ∧ (db.rows.map AdvertisementORM.id).Nodup

instance (db : DB) : Decidable db.inv := by
  unfold DB.inv; infer_instance

/-- Response bodies. -/
inductive Body where
  | adv (a : Advertisement)
  | advList (l : List Advertisement)
  | empty
  deriving DecidableEq, Repr

/-- An HTTP response: a success with status and body, an `HTTPException`
raised by the handler, a 422 produced by request validation before the
handler runs, or a 500 from an uncaught exception. -/
inductive Response where
  | ok (status : Nat) (body : Body)
  | httpError (status : Nat) (detail : Str)
  | validationError
  | serverError
  deriving DecidableEq, Repr

/-- The fixed 404 detail string. -/
def notFoundDetail : Str := "Advertisement not found".toList

/-- `create_advertisement` (src/main.py lines 55-69): build the ORM object
with a fresh id and `created_at = now`, add + commit, return
`orm_to_pydantic` of it with status 201. -/
def create_advertisement (now : Nat) (ad : AdvertisementCreate) (db : DB) :
    Response × DB :=
  let ad_obj : AdvertisementORM :=
    { id := db.nextId, title := some ad.title, description := some ad.description,
      price := some ad.price, author := some ad.author, created_at := now }
  ((match orm_to_pydantic ad_obj with
    | some a => .ok 201 (.adv a)
    | none => .serverError),
   { rows := db.rows ++ [ad_obj], nextId := db.nextId + 1 })

/-- POST /advertisement: body validation, then the handler. -/
def postAdvertisement (now : Nat) (raw : RawCreate) (db : DB) : Response × DB :=
  match parseCreate raw with
  | .error _ => (.validationError, db)
  | .ok ad => create_advertisement now ad db

/-- `get_advertisement` (src/main.py lines 71-77): 404 when absent, else the
Output representation (response-model validation can still fail on a row
holding nulls). -/
def get_advertisement (id : Nat) (db : DB) : Response × DB :=
  match findRow db id with
  | none => (.httpError 404 notFoundDetail, db)
  | some r =>
    match orm_to_pydantic r with
    | some a => (.ok 200 (.adv a), db)
    | none => (.serverError, db)

/-- `update_advertisement` (src/main.py lines 79-97): fetch, 404 when absent,
merge the set fields, commit (the store is updated even when the response
model then fails to validate), return the updated representation. -/
def update_advertisement (id : Nat) (u : AdvertisementUpdate) (db : DB) :
    Response × DB :=
  match findRow db id with
  | none => (.httpError 404 notFoundDetail, db)
  | some existing =>
    let updated := applyUpdate u existing
    let db' : DB :=
      { db with rows := db.rows.map (fun r => if r.id == id then updated else r) }
    match orm_to_pydantic updated with
    | some a => (.ok 200 (.adv a), db')
    | none => (.serverError, db')

/-- PATCH /advertisement/id: body validation, then the handler. -/
def patchAdvertisement (id : Nat) (raw : AdvertisementUpdate) (db : DB) :
    Response × DB :=
  match parseUpdate raw with
  | .error _ => (.validationError, db)
  | .ok u => update_advertisement id u db

/-- `delete_advertisement` (src/main.py lines 99-107): fetch, 404 when absent,
else delete + commit and return an empty 204. -/
def delete_advertisement (id : Nat) (db : DB) : Response × DB :=
  match findRow db id with
  | none => (.httpError 404 notFoundDetail, db)
  | some _ =>
    (.ok 204 .empty, { db with rows := db.rows.filter (fun r => !(r.id == id)) })

/-- `attr.lower()` on a possibly-`None` attribute: `None.lower()` raises
`AttributeError`. -/
def lowerAttr : Option Str → Except Unit Str
  | none => .error ()
  | some s => .ok (lowerStr s)

/-- The per-row test of the `q` filter (src/main.py line 126):
`q_lower in a.title.lower() or q_lower in a.description.lower()`, with
Python's short-circuit `or` (the description attribute is only touched when
the title does not match). -/
def qMatch (ql : Str) (r : AdvertisementORM) : Except Unit Bool := do
  let t ← lowerAttr r.title
  if containsSub ql t then pure true
  else do
    let d ← lowerAttr r.description
    pure (containsSub ql d)

/-- `a.price >= min_price` (src/main.py line 129); comparing a `None`
attribute with a number raises `TypeError`. -/
def priceGeFilter (m : Rat) (r : AdvertisementORM) : Except Unit Bool :=
  match r.price with
  | none => .error ()
  | some p => .ok (decide (m ≤ p))

/-- `a.price <= max_price` (src/main.py line 131). -/
def priceLeFilter (m : Rat) (r : AdvertisementORM) : Except Unit Bool :=
  match r.price with
  | none => .error ()
  | some p => .ok (decide (p ≤ m))

/-- `a.author == author` (src/main.py line 133): in Python `None == "s"` is
`False`, no exception. -/
def authorFilter (s : Str) (r : AdvertisementORM) : Bool :=
  match r.author with
  | none => false
  | some a => a == s

/-- A Python list comprehension `[a for a in rows if p(a)]` whose predicate
may raise: elements are tested left to right and the first exception aborts. -/
def filterExc (p : AdvertisementORM → Except Unit Bool) :
    List AdvertisementORM → Except Unit (List AdvertisementORM)
  | [] => .ok []
  | r :: rs =>
    match p r with
    | .error e => .error e
    | .ok b =>
      match filterExc p rs with
      | .error e => .error e
      | .ok rest => .ok (if b then r :: rest else rest)

/-- `[orm_to_pydantic(a) for a in results]` (src/main.py line 135): the first
row that fails pydantic validation raises. -/
def mapOut : List AdvertisementORM → Except Unit (List Advertisement)
  | [] => .ok []
  | r :: rs =>
    match orm_to_pydantic r with
    | none => .error ()
    | some a =>
      match mapOut rs with
      | .error e => .error e
      | .ok rest => .ok (a :: rest)

/-- `if q:` and the first comprehension (src/main.py lines 122-127): Python
truthiness makes a `None` q and an empty-string q both skip the filter. -/
def stageQ (q : Option Str) (rows : List AdvertisementORM) :
    Except Unit (List AdvertisementORM) :=
  match q with
  | none => .ok rows
  | some [] => .ok rows
  | some s => filterExc (qMatch (lowerStr s)) rows

/-- `if min_price is not None:` and its comprehension (lines 128-129). -/
def stageMin (min_price : Option Rat) (rows : List AdvertisementORM) :
    Except Unit (List AdvertisementORM) :=
  match min_price with
  | none => .ok rows
  | some m => filterExc (priceGeFilter m) rows

/-- `if max_price is not None:` and its comprehension (lines 130-131). -/
def stageMax (max_price : Option Rat) (rows : List AdvertisementORM) :
    Except Unit (List AdvertisementORM) :=
  match max_price with
  | none => .ok rows
  | some m => filterExc (priceLeFilter m) rows

/-- `if author is not None:` and its comprehension (lines 132-133). -/
def stageAuthor (author : Option Str) (rows : List AdvertisementORM) :
    List AdvertisementORM :=
  match author with
  | none => rows
  | some s => rows.filter (authorFilter s)

/-- The filter pipeline of `search_advertisements` (src/main.py lines
117-135) applied to the fetched rows: the four stages in source order,
aborting at the first exception, then the output conversion. -/
def searchRows (q : Option Str) (min_price max_price : Option Rat)
    (author : Option Str) (rows : List AdvertisementORM) :
    Except Unit (List Advertisement) :=
  match stageQ q rows with
  | .error e => .error e
  | .ok r1 =>
    match stageMin min_price r1 with
    | .error e => .error e
    | .ok r2 =>
      match stageMax max_price r2 with
      | .error e => .error e
      | .ok r3 => mapOut (stageAuthor author r3)

/-- `search_advertisements` (src/main.py lines 109-135): fetch all rows, run
the filter pipeline, 200 with the list (500 on an uncaught exception). -/
def search_advertisements (q : Option Str) (min_price max_price : Option Rat)
    (author : Option Str) (db : DB) : Response × DB :=
  match searchRows q min_price max_price author db.rows with
  | .ok l => (.ok 200 (.advList l), db)
  | .error _ => (.serverError, db)

/-- GET /advertisement: FastAPI validates `min_price`/`max_price` against
`Query(None, ge=0)` before the handler runs. -/
def searchEndpoint (q : Option Str) (min_price max_price : Option Rat)
    (author : Option Str) (db : DB) : Response × DB :=
  if (match min_price with | some m => decide (m < 0) | none => false) then
    (.validationError, db)
  else if (match max_price with | some m => decide (m < 0) | none => false) then
    (.validationError, db)
  else
    search_advertisements q min_price max_price author db

/-- A row all of whose data attributes hold values (no nulls): what `create`
produces and what any valid non-null update preserves. -/
def AdvertisementORM.wfb (r : AdvertisementORM) : Bool :=
  r.title.isSome && r.description.isSome && r.price.isSome && r.author.isSome

/-- Total reading of a well-formed row as an output representation; agrees
with `orm_to_pydantic` on well-formed rows. -/
def rowToAdv (r : AdvertisementORM) : Advertisement :=
  { id := r.id, title := r.title.getD [], description := r.description.getD [],
    price := r.price.getD 0, author := r.author.getD [],
    created_at := r.created_at }

/-- Spec-side search predicate, following the spec's words: q present ⇒ q is
a case-insensitive substring of title or description; min_price present ⇒
price ≥ min_price; max_price present ⇒ price ≤ max_price; author present ⇒
author exactly equal; conjunctive. -/
def specKeep (q : Option Str) (min_price max_price : Option Rat)
    (author : Option Str) (a : Advertisement) : Bool :=
  (match q with
   | none => true
   | some s => containsSub (lowerStr s) (lowerStr a.title) ||
       containsSub (lowerStr s) (lowerStr a.description)) &&
  (match min_price with | none => true | some m => decide (m ≤ a.price)) &&
  (match max_price with | none => true | some m => decide (a.price ≤ m)) &&
  (match author with | none => true | some s => a.author == s)

/-- The component predicates of `specKeep`, phrased on rows. -/
def kqPred : Option Str → AdvertisementORM → Bool
  | none, _ => true
  | some s, r => containsSub (lowerStr s) (lowerStr (rowToAdv r).title)
      || containsSub (lowerStr s) (lowerStr (rowToAdv r).description)

def kminPred : Option Rat → AdvertisementORM → Bool
  | none, _ => true
  | some m, r => decide (m ≤ (rowToAdv r).price)

def kmaxPred : Option Rat → AdvertisementORM → Bool
  | none, _ => true
  | some m, r => decide ((rowToAdv r).price ≤ m)

def kauthPred : Option Str → AdvertisementORM → Bool
  | none, _ => true
  | some s, r => (rowToAdv r).author == s

/- The in-memory storage variant and the operation traces (claim C9).
Only the relational variant exists under src/; the in-memory variant is
modelled from the spec. -/

/-- Modelled from the spec: the in-memory storage variant of §4.2 - "entity
maps one-to-one to a value in a mapping keyed by id"; state is
process-lifetime only. The fresh-id counter plays the same role as in the
relational model. -/
structure MemDB where
  entries : List (Nat × AdvertisementORM)
  nextId : Nat
  deriving DecidableEq, Repr

def MemDB.empty : MemDB := ⟨[], 0⟩

/-- Modelled from the spec: `put(entity)` inserts a new entity or overwrites
an existing one keyed by `id`. -/
def memPut (r : AdvertisementORM) (m : MemDB) : MemDB :=
  if m.entries.any (fun e => e.1 == r.id) then
    { m with entries :=
        m.entries.map (fun e => if e.1 == r.id then (r.id, r) else e) }
  else
    { m with entries := m.entries ++ [(r.id, r)] }

/-- Modelled from the spec: `get(id)` returns the entity or signals NotFound
(`none`). -/
def memGet (id : Nat) (m : MemDB) : Option AdvertisementORM :=
  (m.entries.find? (fun e => e.1 == id)).map Prod.snd

/-- Modelled from the spec: `delete(id)` removes the entity keyed by `id`. -/
def memDelete (id : Nat) (m : MemDB) : MemDB :=
  { m with entries := m.entries.filter (fun e => !(e.1 == id)) }

/-- Modelled from the spec: `list_all()` yields the current full snapshot. -/
def memListAll (m : MemDB) : List AdvertisementORM := m.entries.map Prod.snd

/-- Modelled from the spec: the create handler over the in-memory variant
(§4.3 Create - fresh id, created_at stamped, persisted via put, 201). -/
def memCreate (now : Nat) (raw : RawCreate) (m : MemDB) : Response × MemDB :=
  match parseCreate raw with
  | .error _ => (.validationError, m)
  | .ok ad =>
    let ad_obj : AdvertisementORM :=
      { id := m.nextId, title := some ad.title,
        description := some ad.description, price := some ad.price,
        author := some ad.author, created_at := now }
    ((match orm_to_pydantic ad_obj with
      | some a => .ok 201 (.adv a)
      | none => .serverError),
     memPut ad_obj { m with nextId := m.nextId + 1 })

/-- Modelled from the spec: the read handler over the in-memory variant. -/
def memRead (id : Nat) (m : MemDB) : Response × MemDB :=
  match memGet id m with
  | none => (.httpError 404 notFoundDetail, m)
  | some r =>
    match orm_to_pydantic r with
    | some a => (.ok 200 (.adv a), m)
    | none => (.serverError, m)

/-- Modelled from the spec: the update handler over the in-memory variant
(get, merge only the set fields, put). -/
def memUpdate (id : Nat) (raw : AdvertisementUpdate) (m : MemDB) :
    Response × MemDB :=
  match parseUpdate raw with
  | .error _ => (.validationError, m)
  | .ok u =>
    match memGet id m with
    | none => (.httpError 404 notFoundDetail, m)
    | some existing =>
      let updated := applyUpdate u existing
      match orm_to_pydantic updated with
      | some a => (.ok 200 (.adv a), memPut updated m)
      | none => (.serverError, memPut updated m)

/-- Modelled from the spec: the delete handler over the in-memory variant. -/
def memDeleteOp (id : Nat) (m : MemDB) : Response × MemDB :=
  match memGet id m with
  | none => (.httpError 404 notFoundDetail, m)
  | some _ => (.ok 204 .empty, memDelete id m)

/-- Modelled from the spec: the search handler over the in-memory variant
(list_all then the same filter pipeline). -/
def memSearch (q : Option Str) (min_price max_price : Option Rat)
    (author : Option Str) (m : MemDB) : Response × MemDB :=
  if (match min_price with | some mp => decide (mp < 0) | none => false) then
    (.validationError, m)
  else if (match max_price with
           | some mp => decide (mp < 0) | none => false) then
    (.validationError, m)
  else
    match searchRows q min_price max_price author (memListAll m) with
    | .ok l => (.ok 200 (.advList l), m)
    | .error _ => (.serverError, m)

/-- One externally visible operation of the HTTP surface. -/
inductive Op where
  | create (now : Nat) (raw : RawCreate)
  | read (id : Nat)
  | update (id : Nat) (raw : AdvertisementUpdate)
  | delete (id : Nat)
  | search (q : Option Str) (min_price max_price : Option Rat)
      (author : Option Str)

/-- Dispatch over the relational (src/main.py) handlers. -/
def runRel : Op → DB → Response × DB
  | .create now raw, db => postAdvertisement now raw db
  | .read id, db => get_advertisement id db
  | .update id raw, db => patchAdvertisement id raw db
  | .delete id, db => delete_advertisement id db
  | .search q mi ma au, db => searchEndpoint q mi ma au db

/-- Dispatch over the in-memory handlers. -/
def runMem : Op → MemDB → Response × MemDB
  | .create now raw, m => memCreate now raw m
  | .read id, m => memRead id m
  | .update id raw, m => memUpdate id raw m
  | .delete id, m => memDeleteOp id m
  | .search q mi ma au, m => memSearch q mi ma au m

/-- The sequence of responses an operation sequence produces. -/
def traceRel : List Op → DB → List Response
  | [], _ => []
  | op :: ops, db => (runRel op db).1 :: traceRel ops (runRel op db).2

def traceMem : List Op → MemDB → List Response
  | [], _ => []
  | op :: ops, m => (runMem op m).1 :: traceMem ops (runMem op m).2

/-- The coupling between the two storage variants: the in-memory mapping is
exactly the table keyed by row id, the counters agree, and the relational
store satisfies its invariant. -/
def coupled (db : DB) (m : MemDB) : Prop :=
  m.entries = db.rows.map (fun r => (r.id, r)) ∧
  m.nextId = db.nextId ∧ db.inv

/- Concrete fixtures used by the witness theorems. `rowA`/`rowB` are the
spec's filter-conjunction example: A(price=10, author="x"),
B(price=20, author="y"). -/

def rowA : AdvertisementORM :=
  ⟨0, some ("Bike".toList), some ("Good".toList), some 10, some ("x".toList), 5⟩

def rowB : AdvertisementORM :=
  ⟨1, some ("Car".toList), some ("Nice".toList), some 20, some ("y".toList), 6⟩

def dbAB : DB := ⟨[rowA, rowB], 2⟩

def rawBike : RawCreate :=
  ⟨some ("Bike".toList), some ("Good".toList), some 15000, some ("Ivan".toList)⟩

def emptyTitleRaw : RawCreate :=
  ⟨some [], some ("D".toList), some 3, some ("A".toList)⟩

/-- A PATCH body setting only the price. -/
def priceOnlyPatch : AdvertisementUpdate := { price := some (some 12000) }

/-- A PATCH body explicitly setting every field to null. -/
def allNullPatch : AdvertisementUpdate :=
  { title := some none, description := some none,
    price := some none, author := some none }

/- ------------------------------------------------------------------ -/
/- Helper lemmas shared across the claims. -/

theorem orm_to_pydantic_wfb (r : AdvertisementORM) (h : r.wfb = true) :
    orm_to_pydantic r = some (rowToAdv r) := by
  obtain ⟨i, t, d, p, a, c⟩ := r
  simp only [AdvertisementORM.wfb, Bool.and_eq_true, Option.isSome_iff_exists] at h
  obtain ⟨⟨⟨⟨t', ht⟩, ⟨d', hd⟩⟩, ⟨p', hp⟩⟩, ⟨a', ha⟩⟩ := h
  subst ht hd hp ha
  rfl

theorem findRow_filter_out (db : DB) (id : Nat) :
    (db.rows.filter (fun r => !(r.id == id))).find? (fun r => r.id == id)
      = none := by
  rw [List.find?_eq_none]
  intro r hr
  have := (List.mem_filter.mp hr).2
  simp at this
  simp [this]

theorem findRow_append_fresh (rows : List AdvertisementORM)
    (obj : AdvertisementORM) (h : ∀ r ∈ rows, r.id ≠ obj.id) :
    (rows ++ [obj]).find? (fun r => r.id == obj.id) = some obj := by
  induction rows with
  | nil => simp [List.find?]
  | cons r rs ih =>
    have hr : (r.id == obj.id) = false := by
      simp
      exact h r (List.mem_cons_self r rs)
    simp only [List.cons_append, List.find?, hr]
    exact ih (fun x hx => h x (List.mem_cons_of_mem r hx))

/- ------------------------------------------------------------------ -/
/- Claims. -/

/-- Claim C4: for every id with no stored entity, read, update and delete
each fail with a 404 carrying the fixed detail "Advertisement not found" and
leave the store untouched; read on an existing (well-formed) id returns the
full Output representation. -/
theorem missing_id_yields_404 (db : DB) (id : Nat) (raw u : AdvertisementUpdate) :
    (findRow db id = none →
      get_advertisement id db = (.httpError 404 notFoundDetail, db) ∧
      (parseUpdate raw = Except.ok u →
        patchAdvertisement id raw db = (.httpError 404 notFoundDetail, db)) ∧
      delete_advertisement id db = (.httpError 404 notFoundDetail, db)) ∧
    (∀ r, findRow db id = some r → r.wfb = true →
      get_advertisement id db = (.ok 200 (.adv (rowToAdv r)), db)) := by
  constructor
  · intro hnone
    refine ⟨?_, ?_, ?_⟩
    · simp [get_advertisement, hnone]
    · intro hparse
      simp [patchAdvertisement, hparse, update_advertisement, hnone]
    · simp [delete_advertisement, hnone]
  · intro r hr hwf
    simp [get_advertisement, hr, orm_to_pydantic_wfb r hwf]

/-- Witness for C4 at a concrete store: id 7 is absent (all three operations
404 and the store is unchanged), id 0 is present and read returns its Output
representation. -/
theorem missing_id_yields_404_witness :
    (get_advertisement 7 dbAB = (.httpError 404 notFoundDetail, dbAB) ∧
      (patchAdvertisement 7 {} dbAB = (.httpError 404 notFoundDetail, dbAB)) ∧
      delete_advertisement 7 dbAB = (.httpError 404 notFoundDetail, dbAB)) ∧
    get_advertisement 0 dbAB = (.ok 200 (.adv (rowToAdv rowA)), dbAB) := by
  have h := missing_id_yields_404 dbAB 7 {} {}
  have h0 := (missing_id_yields_404 dbAB 0 {} {}).2 rowA (by decide) (by decide)
  have hn := h.1 (by decide)
  exact ⟨⟨hn.1, hn.2.1 rfl, hn.2.2⟩, h0⟩

/-- Claim C5: deleting an existing advertisement returns an empty 204 and
removes the entity; repeating the same delete yields a 404, never a silent
success. -/
theorem delete_then_delete_notfound (db : DB) (id : Nat)
    (r : AdvertisementORM) (h : findRow db id = some r) :
    delete_advertisement id db =
      (.ok 204 .empty,
        { db with rows := db.rows.filter (fun x => !(x.id == id)) }) ∧
    (∀ x ∈ (delete_advertisement id db).2.rows, x.id ≠ id) ∧
    delete_advertisement id (delete_advertisement id db).2 =
      (.httpError 404 notFoundDetail, (delete_advertisement id db).2) := by
  have h1 : delete_advertisement id db =
      (.ok 204 .empty,
        { db with rows := db.rows.filter (fun x => !(x.id == id)) }) := by
    simp [delete_advertisement, h]
  refine ⟨h1, ?_, ?_⟩
  · intro x hx
    rw [h1] at hx
    have := (List.mem_filter.mp hx).2
    simpa using this
  · rw [h1]
    simp only [delete_advertisement, findRow]
    rw [findRow_filter_out]

/-- Witness for C5: deleting id 0 from the concrete store succeeds with 204
and the second delete returns the 404. -/
theorem delete_then_delete_notfound_witness :
    delete_advertisement 0 dbAB =
      (.ok 204 .empty, { dbAB with rows := [rowB] }) ∧
    delete_advertisement 0 (delete_advertisement 0 dbAB).2 =
      (.httpError 404 notFoundDetail, (delete_advertisement 0 dbAB).2) := by
  have h := delete_then_delete_notfound dbAB 0 rowA (by decide)
  refine ⟨?_, h.2.2⟩
  rw [h.1]
  decide

/-- Shared shape of a successful POST: the response and the new store. -/
theorem post_ok (now : Nat) (db : DB) (raw : RawCreate)
    (ad : AdvertisementCreate) (hparse : parseCreate raw = Except.ok ad) :
    postAdvertisement now raw db =
      (.ok 201 (.adv ⟨db.nextId, ad.title, ad.description, ad.price,
          ad.author, now⟩),
       ⟨db.rows ++ [⟨db.nextId, some ad.title, some ad.description,
          some ad.price, some ad.author, now⟩], db.nextId + 1⟩) := by
  simp [postAdvertisement, hparse, create_advertisement, orm_to_pydantic]

/-- The fresh-id append preserves the store invariant. -/
theorem inv_append_fresh (db : DB) (obj : AdvertisementORM)
    (hinv : db.inv) (hid : obj.id = db.nextId) :
    DB.inv ⟨db.rows ++ [obj], db.nextId + 1⟩ := by
  obtain ⟨hlt, hnd⟩ := hinv
  constructor
  · intro r hr
    rcases List.mem_append.mp hr with h | h
    · exact Nat.lt_succ_of_lt (hlt r h)
    · simp only [List.mem_singleton] at h
      subst h
      simp [hid]
  · rw [List.map_append]
    apply List.Nodup.append hnd (List.nodup_singleton _)
    intro x hx hx2
    simp only [List.map_cons, List.map_nil, List.mem_singleton] at hx2
    subst hx2
    obtain ⟨r, hr, hrid⟩ := List.mem_map.mp hx
    exact absurd (hrid.trans hid) (Nat.ne_of_lt (hlt r hr))

/-- Claim C2: the update operation applies only the fields explicitly present
in the payload onto the existing entity, leaving id and created_at untouched
and leaving every absent field unchanged; in particular updating only price
leaves title, description, author and created_at unchanged. -/
theorem update_applies_only_set_fields (db : DB) (id : Nat)
    (r : AdvertisementORM) (raw u : AdvertisementUpdate)
    (hfind : findRow db id = some r) (hparse : parseUpdate raw = Except.ok u) :
    (patchAdvertisement id raw db).2.rows
      = db.rows.map (fun x => if x.id == id then applyUpdate u r else x) ∧
    (applyUpdate u r).id = r.id ∧
    (applyUpdate u r).created_at = r.created_at ∧
    (u.title = none → (applyUpdate u r).title = r.title) ∧
    (u.description = none → (applyUpdate u r).description = r.description) ∧
    (u.price = none → (applyUpdate u r).price = r.price) ∧
    (u.author = none → (applyUpdate u r).author = r.author) ∧
    (∀ v, u.price = some v → (applyUpdate u r).price = v) := by
  refine ⟨?_, rfl, rfl, ?_, ?_, ?_, ?_, ?_⟩
  · simp only [patchAdvertisement, hparse, update_advertisement, hfind]
    rcases horm : orm_to_pydantic (applyUpdate u r) with _ | a <;> simp [horm]
  · intro h; simp [applyUpdate, h]
  · intro h; simp [applyUpdate, h]
  · intro h; simp [applyUpdate, h]
  · intro h; simp [applyUpdate, h]
  · intro v h; simp [applyUpdate, h]

/-- Witness for C2 at a concrete store: PATCH only the price of id 0; the
stored rows are the merged map and none of the other fields of row A move. -/
theorem update_applies_only_set_fields_witness :
    (patchAdvertisement 0 priceOnlyPatch dbAB).2.rows
      = dbAB.rows.map (fun x =>
          if x.id == 0 then applyUpdate priceOnlyPatch rowA else x) ∧
    (applyUpdate priceOnlyPatch rowA).title = rowA.title ∧
    (applyUpdate priceOnlyPatch rowA).created_at = rowA.created_at := by
  have h := update_applies_only_set_fields dbAB 0 rowA
    priceOnlyPatch priceOnlyPatch (by decide) rfl
  exact ⟨h.1, h.2.2.2.1 rfl, h.2.2.1⟩

/-- Claim C10: a field explicitly supplied as null in the update payload is
applied - the stored attribute becomes null - because the merge uses
exclude-unset semantics; this holds for title, description, price and
author alike; the merged row replaces the stored one. -/
theorem explicit_null_overwrites_fields (db : DB) (id : Nat)
    (r : AdvertisementORM) (raw : AdvertisementUpdate)
    (hfind : findRow db id = some r)
    (hparse : parseUpdate raw = Except.ok raw) :
    ((raw.title = some none → (applyUpdate raw r).title = none) ∧
     (raw.description = some none → (applyUpdate raw r).description = none) ∧
     (raw.price = some none → (applyUpdate raw r).price = none) ∧
     (raw.author = some none → (applyUpdate raw r).author = none)) ∧
    (patchAdvertisement id raw db).2.rows
      = db.rows.map (fun x => if x.id == id then applyUpdate raw r else x) := by
  refine ⟨⟨?_, ?_, ?_, ?_⟩, ?_⟩
  · intro h; simp [applyUpdate, h]
  · intro h; simp [applyUpdate, h]
  · intro h; simp [applyUpdate, h]
  · intro h; simp [applyUpdate, h]
  · simp only [patchAdvertisement, hparse, update_advertisement, hfind]
    rcases horm : orm_to_pydantic (applyUpdate raw r) with _ | a <;> simp [horm]

/-- Witness for C10: PATCH id 0 with every field explicitly null; all four
stored attributes of row A become null. -/
theorem explicit_null_overwrites_fields_witness :
    (applyUpdate allNullPatch rowA).title = none ∧
    (applyUpdate allNullPatch rowA).price = none ∧
    (patchAdvertisement 0 allNullPatch dbAB).2.rows
      = dbAB.rows.map (fun x =>
          if x.id == 0 then applyUpdate allNullPatch rowA else x) := by
  have h := explicit_null_overwrites_fields dbAB 0 rowA allNullPatch
    (by decide) rfl
  exact ⟨h.1.1 rfl, h.1.2.2.1 rfl, h.2⟩

/-- Claim C6: a creation or update payload carrying a negative price fails
request validation before the handler body runs, so the store is returned
exactly as it was. -/
theorem negative_price_validation (now : Nat) (db : DB) (id : Nat)
    (rawC : RawCreate) (rawU : AdvertisementUpdate) (p q : Rat)
    (hcp : rawC.price = some p) (hpneg : p < 0)
    (hup : rawU.price = some (some q)) (hqneg : q < 0) :
    postAdvertisement now rawC db = (.validationError, db) ∧
    patchAdvertisement id rawU db = (.validationError, db) := by
  constructor
  · obtain ⟨t, d, pr, a⟩ := rawC
    simp only at hcp
    subst hcp
    cases t <;> cases d <;> cases a <;>
      simp [postAdvertisement, parseCreate, hpneg]
  · simp only [patchAdvertisement, parseUpdate, hup]
    simp [hqneg]

/-- Witness for C6: price -1 in a POST body and in a PATCH body both produce
the validation error and leave the concrete store unchanged. -/
theorem negative_price_validation_witness :
    postAdvertisement 7 ⟨some ("T".toList), some ("D".toList), some (-1),
        some ("A".toList)⟩ dbAB = (.validationError, dbAB) ∧
    patchAdvertisement 0 ({ price := some (some (-1)) } :
        AdvertisementUpdate) dbAB = (.validationError, dbAB) :=
  negative_price_validation 7 dbAB 0 _ _ (-1) (-1) rfl (by norm_num)
    rfl (by norm_num)

/-- Claim C7 counterexample: a creation input whose title is the empty string
is NOT rejected - it passes validation, is persisted, and a stored entity
with an empty title results. -/
theorem empty_title_accepted_cex :
    (postAdvertisement 7 emptyTitleRaw DB.empty).1 ≠ Response.validationError ∧
    (postAdvertisement 7 emptyTitleRaw DB.empty).1
      = .ok 201 (.adv ⟨0, [], ("D".toList), 3, ("A".toList), 7⟩) ∧
    ∃ r ∈ (postAdvertisement 7 emptyTitleRaw DB.empty).2.rows,
      r.title = some [] := by
  refine ⟨by decide, rfl, ?_⟩
  exact ⟨⟨0, some [], some ("D".toList), some 3, some ("A".toList), 7⟩,
    by decide, rfl⟩

/-- Claim C7 (amended): the title is a required field - a creation input
missing it fails with a ValidationError - but its content is not validated:
the empty string passes and the created entity is stored and returned with an
empty title. -/
theorem title_required_but_emptiness_unchecked (now : Nat) (db : DB)
    (raw : RawCreate) :
    (raw.title = none → postAdvertisement now raw db = (.validationError, db)) ∧
    (∀ d p a, 0 ≤ p →
      (postAdvertisement now ⟨some [], some d, some p, some a⟩ db).1
        = .ok 201 (.adv ⟨db.nextId, [], d, p, a, now⟩)) := by
  constructor
  · intro h
    obtain ⟨t, d, pr, a⟩ := raw
    simp only at h
    subst h
    simp [postAdvertisement, parseCreate]
  · intro d p a hp
    have hparse : parseCreate ⟨some [], some d, some p, some a⟩
        = Except.ok ⟨[], d, p, a⟩ := by
      simp [parseCreate, not_lt.mpr hp]
    rw [post_ok now db _ _ hparse]

/-- Witness for C7's amended claim: a POST body with no title is rejected,
and the concrete empty-title body is created with status 201. -/
theorem title_required_but_emptiness_unchecked_witness :
    postAdvertisement 7 ⟨none, some ("D".toList), some 3, some ("A".toList)⟩
        dbAB = (.validationError, dbAB) ∧
    (postAdvertisement 7 ⟨some [], some ("D".toList), some 3,
        some ("A".toList)⟩ dbAB).1
      = .ok 201 (.adv ⟨dbAB.nextId, [], ("D".toList), 3, ("A".toList), 7⟩) :=
  ⟨(title_required_but_emptiness_unchecked 7 dbAB _).1 rfl,
   (title_required_but_emptiness_unchecked 7 dbAB
      ⟨none, none, none, none⟩).2 ("D".toList) 3 ("A".toList) (by norm_num)⟩

/-- Claim C8: for every valid creation input, create issues the current value
of the fresh-id counter as the new id - an id no stored entity carries, and
(by the store invariant) one never issued before - stamps created_at with the
call time `now`, appends the entity to the store, advances the counter, and
returns the full Output representation with status 201; the caller supplies
no id (a `RawCreate` has no id field). The invariant is preserved. -/
theorem create_fresh_id_and_timestamp (now : Nat) (db : DB) (raw : RawCreate)
    (ad : AdvertisementCreate) (hinv : db.inv)
    (hparse : parseCreate raw = Except.ok ad) :
    postAdvertisement now raw db =
      (.ok 201 (.adv ⟨db.nextId, ad.title, ad.description, ad.price,
          ad.author, now⟩),
       ⟨db.rows ++ [⟨db.nextId, some ad.title, some ad.description,
          some ad.price, some ad.author, now⟩], db.nextId + 1⟩) ∧
    (∀ r ∈ db.rows, r.id ≠ db.nextId) ∧
    DB.inv (postAdvertisement now raw db).2 := by
  refine ⟨post_ok now db raw ad hparse, ?_, ?_⟩
  · exact fun r hr => Nat.ne_of_lt (hinv.1 r hr)
  · rw [post_ok now db raw ad hparse]
    exact inv_append_fresh db _ hinv rfl

/-- Witness for C8: creating the spec's bike advertisement on the concrete
store returns 201 with id 2 (= the counter) and created_at 9, appends the
row, and preserves the invariant. -/
theorem create_fresh_id_and_timestamp_witness :
    postAdvertisement 9 rawBike dbAB =
      (.ok 201 (.adv ⟨2, ("Bike".toList), ("Good".toList), 15000,
          ("Ivan".toList), 9⟩),
       ⟨dbAB.rows ++ [⟨2, some ("Bike".toList), some ("Good".toList),
          some 15000, some ("Ivan".toList), 9⟩], 3⟩) ∧
    DB.inv (postAdvertisement 9 rawBike dbAB).2 := by
  have h := create_fresh_id_and_timestamp 9 dbAB rawBike
    ⟨("Bike".toList), ("Good".toList), 15000, ("Ivan".toList)⟩
    (by decide) rfl
  exact ⟨h.1, h.2.2⟩

/-- Claim C3: creating an entity and immediately reading it back by the id
the create returned yields exactly the Output representation the create
returned, with the store unchanged by the read. -/
theorem create_then_get_roundtrip (now : Nat) (db : DB) (raw : RawCreate)
    (ad : AdvertisementCreate) (hinv : db.inv)
    (hparse : parseCreate raw = Except.ok ad) :
    ∃ a : Advertisement,
      (postAdvertisement now raw db).1 = .ok 201 (.adv a) ∧
      get_advertisement a.id (postAdvertisement now raw db).2 =
        (.ok 200 (.adv a), (postAdvertisement now raw db).2) := by
  rw [post_ok now db raw ad hparse]
  refine ⟨⟨db.nextId, ad.title, ad.description, ad.price, ad.author, now⟩,
    rfl, ?_⟩
  have hfind : findRow
      ⟨db.rows ++ [⟨db.nextId, some ad.title, some ad.description,
        some ad.price, some ad.author, now⟩], db.nextId + 1⟩ db.nextId
      = some ⟨db.nextId, some ad.title, some ad.description,
          some ad.price, some ad.author, now⟩ := by
    unfold findRow
    exact findRow_append_fresh db.rows
      ⟨db.nextId, some ad.title, some ad.description, some ad.price,
        some ad.author, now⟩
      (fun r hr => Nat.ne_of_lt (hinv.1 r hr))
  simp [get_advertisement, hfind, orm_to_pydantic]

/-- Witness for C3: the round trip at the concrete store and the bike body. -/
theorem create_then_get_roundtrip_witness :
    ∃ a : Advertisement,
      (postAdvertisement 9 rawBike dbAB).1 = .ok 201 (.adv a) ∧
      get_advertisement a.id (postAdvertisement 9 rawBike dbAB).2 =
        (.ok 200 (.adv a), (postAdvertisement 9 rawBike dbAB).2) :=
  create_then_get_roundtrip 9 dbAB rawBike
    ⟨("Bike".toList), ("Good".toList), 15000, ("Ivan".toList)⟩
    (by decide) rfl

/- ------------------------------------------------------------------ -/
/- The search pipeline on well-formed rows (claim C1). -/

theorem containsSub_nil (l : Str) : containsSub [] l = true := by
  cases l <;> rfl

/-- On a well-formed row every data attribute is the `some` of the
corresponding output field. -/
theorem wfb_fields (r : AdvertisementORM) (h : r.wfb = true) :
    r.title = some (rowToAdv r).title ∧
    r.description = some (rowToAdv r).description ∧
    r.price = some (rowToAdv r).price ∧
    r.author = some (rowToAdv r).author := by
  obtain ⟨i, t, d, p, a, c⟩ := r
  simp only [AdvertisementORM.wfb, Bool.and_eq_true, Option.isSome_iff_exists] at h
  obtain ⟨⟨⟨⟨t', ht⟩, ⟨d', hd⟩⟩, ⟨p', hp⟩⟩, ⟨a', ha⟩⟩ := h
  subst ht hd hp ha
  exact ⟨rfl, rfl, rfl, rfl⟩

theorem filterExc_ok (p : AdvertisementORM → Except Unit Bool)
    (g : AdvertisementORM → Bool) (rows : List AdvertisementORM)
    (h : ∀ r ∈ rows, p r = .ok (g r)) :
    filterExc p rows = .ok (rows.filter g) := by
  induction rows with
  | nil => rfl
  | cons r rs ih =>
    simp only [filterExc, h r (List.mem_cons_self r rs),
      ih (fun x hx => h x (List.mem_cons_of_mem r hx)), List.filter_cons]

theorem mapOut_wf (rows : List AdvertisementORM)
    (h : ∀ r ∈ rows, r.wfb = true) :
    mapOut rows = .ok (rows.map rowToAdv) := by
  induction rows with
  | nil => rfl
  | cons r rs ih =>
    simp only [mapOut, orm_to_pydantic_wfb r (h r (List.mem_cons_self r rs)),
      ih (fun x hx => h x (List.mem_cons_of_mem r hx)), List.map_cons]

theorem qMatch_wf (ql : Str) (r : AdvertisementORM) (h : r.wfb = true) :
    qMatch ql r = .ok (containsSub ql (lowerStr (rowToAdv r).title)
      || containsSub ql (lowerStr (rowToAdv r).description)) := by
  obtain ⟨hf1, hf2, hf3, hf4⟩ := wfb_fields r h
  simp only [qMatch, hf1, hf2, lowerAttr, bind, Except.bind]
  cases hc : containsSub ql (lowerStr (rowToAdv r).title) <;>
    simp [hc, pure, Except.pure]

theorem priceGe_wf (m : Rat) (r : AdvertisementORM) (h : r.wfb = true) :
    priceGeFilter m r = .ok (decide (m ≤ (rowToAdv r).price)) := by
  simp only [priceGeFilter, (wfb_fields r h).2.2.1]

theorem priceLe_wf (m : Rat) (r : AdvertisementORM) (h : r.wfb = true) :
    priceLeFilter m r = .ok (decide ((rowToAdv r).price ≤ m)) := by
  simp only [priceLeFilter, (wfb_fields r h).2.2.1]

theorem authorFilter_wf (s : Str) (r : AdvertisementORM) (h : r.wfb = true) :
    authorFilter s r = ((rowToAdv r).author == s) := by
  simp only [authorFilter, (wfb_fields r h).2.2.2]

theorem specKeep_decomp (q : Option Str) (mi ma : Option Rat)
    (au : Option Str) (r : AdvertisementORM) :
    specKeep q mi ma au (rowToAdv r)
      = (((kqPred q r && kminPred mi r) && kmaxPred ma r) && kauthPred au r) := by
  rcases q with _ | s <;> rcases mi with _ | m1 <;> rcases ma with _ | m2 <;>
    rcases au with _ | s2 <;> rfl

theorem stageQ_wf (q : Option Str) (rows : List AdvertisementORM)
    (hwf : ∀ r ∈ rows, r.wfb = true) :
    stageQ q rows = Except.ok (rows.filter (kqPred q)) := by
  unfold stageQ
  rcases q with _ | s
  · have : rows.filter (kqPred none) = rows := by
      rw [List.filter_congr (fun x _ => rfl : ∀ x ∈ rows, kqPred none x = true)]
      exact List.filter_true rows
    rw [this]
  · rcases s with _ | ⟨c, cs⟩
    · have : rows.filter (kqPred (some [])) = rows := by
        rw [List.filter_congr (fun x _ => by simp [kqPred, lowerStr, containsSub_nil] :
          ∀ x ∈ rows, kqPred (some []) x = true)]
        exact List.filter_true rows
      rw [this]
    · exact filterExc_ok _ _ rows
        (fun r hr => qMatch_wf (lowerStr (c :: cs)) r (hwf r hr))

theorem stageMin_wf (mi : Option Rat) (rows : List AdvertisementORM)
    (hwf : ∀ r ∈ rows, r.wfb = true) :
    stageMin mi rows = Except.ok (rows.filter (kminPred mi)) := by
  unfold stageMin
  rcases mi with _ | m
  · have : rows.filter (kminPred none) = rows := by
      rw [List.filter_congr (fun x _ => rfl : ∀ x ∈ rows, kminPred none x = true)]
      exact List.filter_true rows
    rw [this]
  · exact filterExc_ok _ _ rows (fun r hr => priceGe_wf m r (hwf r hr))

theorem stageMax_wf (ma : Option Rat) (rows : List AdvertisementORM)
    (hwf : ∀ r ∈ rows, r.wfb = true) :
    stageMax ma rows = Except.ok (rows.filter (kmaxPred ma)) := by
  unfold stageMax
  rcases ma with _ | m
  · have : rows.filter (kmaxPred none) = rows := by
      rw [List.filter_congr (fun x _ => rfl : ∀ x ∈ rows, kmaxPred none x = true)]
      exact List.filter_true rows
    rw [this]
  · exact filterExc_ok _ _ rows (fun r hr => priceLe_wf m r (hwf r hr))

theorem stageAuthor_wf (au : Option Str) (rows : List AdvertisementORM)
    (hwf : ∀ r ∈ rows, r.wfb = true) :
    stageAuthor au rows = rows.filter (kauthPred au) := by
  unfold stageAuthor
  rcases au with _ | s
  · rw [List.filter_congr (fun x _ => rfl : ∀ x ∈ rows, kauthPred none x = true)]
    exact (List.filter_true rows).symm
  · exact List.filter_congr (fun x hx => authorFilter_wf s x (hwf x hx))

theorem searchRows_wf (q : Option Str) (mi ma : Option Rat) (au : Option Str)
    (rows : List AdvertisementORM) (hwf : ∀ r ∈ rows, r.wfb = true) :
    searchRows q mi ma au rows =
      .ok ((rows.filter (fun r => specKeep q mi ma au (rowToAdv r))).map
        rowToAdv) := by
  have hwf1 : ∀ r ∈ rows.filter (kqPred q), r.wfb = true :=
    fun r hr => hwf r (List.mem_filter.mp hr).1
  have hwf2 : ∀ r ∈ (rows.filter (kqPred q)).filter (kminPred mi),
      r.wfb = true := fun r hr => hwf1 r (List.mem_filter.mp hr).1
  have hwf3 : ∀ r ∈ ((rows.filter (kqPred q)).filter
      (kminPred mi)).filter (kmaxPred ma), r.wfb = true :=
    fun r hr => hwf2 r (List.mem_filter.mp hr).1
  simp only [searchRows, stageQ_wf q rows hwf, stageMin_wf mi _ hwf1,
    stageMax_wf ma _ hwf2, stageAuthor_wf au _ hwf3,
    mapOut_wf _ (fun r hr => hwf3 r (List.mem_filter.mp hr).1)]
  rw [List.filter_filter, List.filter_filter, List.filter_filter]
  refine congrArg Except.ok (congrArg (List.map rowToAdv) ?_)
  refine List.filter_congr (fun x _ => ?_)
  rw [specKeep_decomp]
  cases kqPred q x <;> cases kminPred mi x <;> cases kmaxPred ma x <;>
    cases kauthPred au x <;> rfl

/-- Claim C1: for every stored collection of (well-formed) advertisements and
every combination of optional search parameters - the prices meeting the
`ge=0` query validation - the search operation returns exactly those entities
passing all supplied filters conjunctively (q a case-insensitive substring of
title or description, price ≥ min_price, price ≤ max_price, author exactly
equal), in the order the fetch produced them, with no re-sorting and no
pagination. -/
theorem search_returns_conjunctive_filters
    (q : Option Str) (min_price max_price : Option Rat) (author : Option Str)
    (db : DB) (hwf : ∀ r ∈ db.rows, r.wfb = true)
    (hmin : ∀ m, min_price = some m → 0 ≤ m)
    (hmax : ∀ m, max_price = some m → 0 ≤ m) :
    searchEndpoint q min_price max_price author db =
      (.ok 200 (.advList ((db.rows.map rowToAdv).filter
          (specKeep q min_price max_price author))), db) := by
  have hgoal : search_advertisements q min_price max_price author db =
      (.ok 200 (.advList ((db.rows.map rowToAdv).filter
          (specKeep q min_price max_price author))), db) := by
    simp only [search_advertisements,
      searchRows_wf q min_price max_price author db.rows hwf]
    rw [List.filter_map]
    rfl
  rcases min_price with _ | m1
  · rcases max_price with _ | m2
    · simpa [searchEndpoint] using hgoal
    · have h2 : ¬ (m2 < 0) := not_lt.mpr (hmax m2 rfl)
      simpa [searchEndpoint, h2] using hgoal
  · have h1 : ¬ (m1 < 0) := not_lt.mpr (hmin m1 rfl)
    rcases max_price with _ | m2
    · simpa [searchEndpoint, h1] using hgoal
    · have h2 : ¬ (m2 < 0) := not_lt.mpr (hmax m2 rfl)
      simpa [searchEndpoint, h1, h2] using hgoal

/-- Witness for C1, the spec's filter-conjunction example: on the store
holding A(price=10, author="x") and B(price=20, author="y"), searching with
min_price=15 and author="y" returns exactly B. -/
theorem search_returns_conjunctive_filters_witness :
    searchEndpoint none (some 15) none (some ("y".toList)) dbAB =
      (.ok 200 (.advList ((dbAB.rows.map rowToAdv).filter
          (specKeep none (some 15) none (some ("y".toList))))), dbAB) ∧
    (dbAB.rows.map rowToAdv).filter
        (specKeep none (some 15) none (some ("y".toList)))
      = [rowToAdv rowB] := by
  refine ⟨search_returns_conjunctive_filters none (some 15) none
    (some ("y".toList)) dbAB (by decide) ?_ ?_, by decide⟩
  · intro m hm
    cases hm
    norm_num
  · exact fun m hm => Option.noConfusion hm

/- ------------------------------------------------------------------ -/
/- Equivalence of the two storage variants (claim C9). -/

theorem find_pair (rows : List AdvertisementORM) (id : Nat) :
    (rows.map (fun r => (r.id, r))).find? (fun e => e.1 == id)
      = (rows.find? (fun r => r.id == id)).map (fun r => (r.id, r)) := by
  induction rows with
  | nil => rfl
  | cons r rs ih =>
    cases h : (r.id == id) <;> simp [List.find?, h, ih]

theorem memGet_coupled (db : DB) (m : MemDB) (h : coupled db m) (id : Nat) :
    memGet id m = findRow db id := by
  rw [memGet, h.1, find_pair, findRow]
  rcases hf : db.rows.find? (fun r => r.id == id) with _ | r <;> simp [hf]

theorem findRow_id (db : DB) (id : Nat) (r : AdvertisementORM)
    (h : findRow db id = some r) : r.id = id := by
  unfold findRow at h
  simpa using List.find?_some h

theorem findRow_mem (db : DB) (id : Nat) (r : AdvertisementORM)
    (h : findRow db id = some r) : r ∈ db.rows := by
  unfold findRow at h
  exact List.mem_of_find?_eq_some h

theorem memListAll_coupled (db : DB) (m : MemDB) (h : coupled db m) :
    memListAll m = db.rows := by
  rw [memListAll, h.1, List.map_map]
  exact List.map_id db.rows

/-- The searchEndpoint never changes the store. -/
theorem searchEndpoint_state (q : Option Str) (mi ma : Option Rat)
    (au : Option Str) (db : DB) :
    (searchEndpoint q mi ma au db).2 = db := by
  unfold searchEndpoint
  split
  · rfl
  · split
    · rfl
    · unfold search_advertisements
      rcases searchRows q mi ma au db.rows with _ | l <;> rfl

/-- The in-memory search never changes the store. -/
theorem memSearch_state (q : Option Str) (mi ma : Option Rat)
    (au : Option Str) (m : MemDB) :
    (memSearch q mi ma au m).2 = m := by
  unfold memSearch
  split
  · rfl
  · split
    · rfl
    · rcases searchRows q mi ma au (memListAll m) with _ | l <;> rfl

theorem runCreate_coupled (now : Nat) (raw : RawCreate) (db : DB) (m : MemDB)
    (h : coupled db m) :
    (memCreate now raw m).1 = (postAdvertisement now raw db).1 ∧
    coupled (postAdvertisement now raw db).2 (memCreate now raw m).2 := by
  obtain ⟨he, hn, hinv⟩ := h
  rcases hp : parseCreate raw with e | ad
  · refine ⟨by simp [memCreate, postAdvertisement, hp], ?_⟩
    simp only [memCreate, postAdvertisement, hp]
    exact ⟨he, hn, hinv⟩
  · have hany : (m.entries.any (fun e => e.1 == m.nextId)) = false := by
      rw [he, hn, List.any_eq_false]
      intro e hemem
      obtain ⟨r, hr, rfl⟩ := List.mem_map.mp hemem
      simpa using Nat.ne_of_lt (hinv.1 r hr)
    have hrel := post_ok now db raw ad hp
    have hmem : memCreate now raw m =
        (.ok 201 (.adv ⟨m.nextId, ad.title, ad.description, ad.price,
            ad.author, now⟩),
         ⟨m.entries ++ [(m.nextId, ⟨m.nextId, some ad.title,
            some ad.description, some ad.price, some ad.author, now⟩)],
          m.nextId + 1⟩) := by
      simp only [memCreate, hp, orm_to_pydantic, memPut]
      rw [if_neg]
      simp only [hany, Bool.false_eq_true, not_false_eq_true]
    rw [hrel, hmem]
    refine ⟨by rw [hn], ?_, by rw [hn], ?_⟩
    · rw [he, hn, List.map_append]
      rfl
    · exact inv_append_fresh db _ hinv rfl

theorem runRead_coupled (id : Nat) (db : DB) (m : MemDB)
    (h : coupled db m) :
    (memRead id m).1 = (get_advertisement id db).1 ∧
    coupled (get_advertisement id db).2 (memRead id m).2 := by
  have hg := memGet_coupled db m h id
  rcases hf : findRow db id with _ | r
  · refine ⟨?_, ?_⟩
    · simp [memRead, get_advertisement, hg, hf]
    · simp only [memRead, get_advertisement, hg, hf]
      exact h
  · refine ⟨?_, ?_⟩
    · simp only [memRead, get_advertisement, hg, hf]
      rcases ho : orm_to_pydantic r with _ | a <;> simp [ho]
    · simp only [memRead, get_advertisement, hg, hf]
      rcases ho : orm_to_pydantic r with _ | a <;> simp only [ho] <;> exact h

theorem runUpdate_coupled (id : Nat) (raw : AdvertisementUpdate) (db : DB)
    (m : MemDB) (h : coupled db m) :
    (memUpdate id raw m).1 = (patchAdvertisement id raw db).1 ∧
    coupled (patchAdvertisement id raw db).2 (memUpdate id raw m).2 := by
  have hg := memGet_coupled db m h id
  obtain ⟨he, hn, hinv⟩ := h
  rcases hp : parseUpdate raw with e | u
  · refine ⟨by simp [memUpdate, patchAdvertisement, hp], ?_⟩
    simp only [memUpdate, patchAdvertisement, hp]
    exact ⟨he, hn, hinv⟩
  · rcases hf : findRow db id with _ | existing
    · refine ⟨?_, ?_⟩
      · simp [memUpdate, patchAdvertisement, update_advertisement, hp, hg, hf]
      · simp only [memUpdate, patchAdvertisement, update_advertisement,
          hp, hg, hf]
        exact ⟨he, hn, hinv⟩
    · have hid : existing.id = id := findRow_id db id existing hf
      have hmem : existing ∈ db.rows := findRow_mem db id existing hf
      have hupdid : (applyUpdate u existing).id = id := hid
      have hany : (m.entries.any
          (fun e => e.1 == (applyUpdate u existing).id)) = true := by
        rw [he, List.any_eq_true]
        refine ⟨(existing.id, existing), List.mem_map_of_mem _ hmem, ?_⟩
        simp [hupdid, hid]
      have hrel2 : (patchAdvertisement id raw db).2 =
          ⟨db.rows.map (fun r =>
            if r.id == id then applyUpdate u existing else r), db.nextId⟩ := by
        simp only [patchAdvertisement, hp, update_advertisement, hf]
        rcases ho : orm_to_pydantic (applyUpdate u existing) with _ | a <;>
          simp [ho]
      have hmem2 : (memUpdate id raw m).2 = memPut (applyUpdate u existing) m := by
        simp only [memUpdate, hp, hg, hf]
        rcases ho : orm_to_pydantic (applyUpdate u existing) with _ | a <;>
          simp [ho]
      have hput : memPut (applyUpdate u existing) m =
          ⟨m.entries.map (fun e =>
            if e.1 == (applyUpdate u existing).id then
              ((applyUpdate u existing).id, applyUpdate u existing)
            else e), m.nextId⟩ := by
        simp [memPut, hany]
      have hentries : m.entries.map (fun e =>
            if e.1 == (applyUpdate u existing).id then
              ((applyUpdate u existing).id, applyUpdate u existing)
            else e)
          = (db.rows.map (fun r =>
              if r.id == id then applyUpdate u existing else r)).map
            (fun r => (r.id, r)) := by
        rw [he, List.map_map, List.map_map]
        apply List.map_congr_left
        intro r _
        by_cases hc : (r.id == id) = true
        · simp [Function.comp, hupdid, hc]
        · simp [Function.comp, hupdid, hc]
      have hinv2 : DB.inv ⟨db.rows.map (fun r =>
          if r.id == id then applyUpdate u existing else r), db.nextId⟩ := by
        constructor
        · intro x hx
          obtain ⟨r, hr, rfl⟩ := List.mem_map.mp hx
          by_cases hc : (r.id == id) = true
          · simp only [hc, if_true]
            show (applyUpdate u existing).id < db.nextId
            rw [hupdid, ← hid]
            exact hinv.1 existing hmem
          · simp only [hc, if_false]
            exact hinv.1 r hr
        · have hids : (db.rows.map (fun r =>
              if r.id == id then applyUpdate u existing else r)).map
                AdvertisementORM.id
              = db.rows.map AdvertisementORM.id := by
            rw [List.map_map]
            apply List.map_congr_left
            intro r _
            by_cases hc : (r.id == id) = true
            · simp only [Function.comp, hc, if_true]
              show (applyUpdate u existing).id = r.id
              have hre : r.id = id := by simpa using hc
              rw [hupdid, hre]
            · simp [Function.comp, hc]
          show ((db.rows.map fun r =>
            if r.id == id then applyUpdate u existing else r).map
              AdvertisementORM.id).Nodup
          rw [hids]
          exact hinv.2
      refine ⟨?_, ?_⟩
      · simp only [memUpdate, patchAdvertisement, update_advertisement,
          hp, hg, hf]
        rcases ho : orm_to_pydantic (applyUpdate u existing) with _ | a <;>
          simp [ho]
      · rw [hrel2, hmem2, hput]
        exact ⟨hentries, hn, hinv2⟩

theorem runDelete_coupled (id : Nat) (db : DB) (m : MemDB)
    (h : coupled db m) :
    (memDeleteOp id m).1 = (delete_advertisement id db).1 ∧
    coupled (delete_advertisement id db).2 (memDeleteOp id m).2 := by
  have hg := memGet_coupled db m h id
  obtain ⟨he, hn, hinv⟩ := h
  rcases hf : findRow db id with _ | r
  · refine ⟨?_, ?_⟩
    · simp [memDeleteOp, delete_advertisement, hg, hf]
    · simp only [memDeleteOp, delete_advertisement, hg, hf]
      exact ⟨he, hn, hinv⟩
  · refine ⟨?_, ?_⟩
    · simp [memDeleteOp, delete_advertisement, hg, hf]
    · simp only [memDeleteOp, delete_advertisement, hg, hf, memDelete]
      refine ⟨?_, hn, ?_, ?_⟩
      · rw [he, List.filter_map]
        rfl
      · intro x hx
        exact hinv.1 x (List.mem_of_mem_filter hx)
      · exact hinv.2.sublist
          (List.Sublist.map AdvertisementORM.id (List.filter_sublist db.rows))

theorem runSearch_coupled (q : Option Str) (mi ma : Option Rat)
    (au : Option Str) (db : DB) (m : MemDB) (h : coupled db m) :
    (memSearch q mi ma au m).1 = (searchEndpoint q mi ma au db).1 ∧
    coupled (searchEndpoint q mi ma au db).2 (memSearch q mi ma au m).2 := by
  refine ⟨?_, ?_⟩
  · have hl := memListAll_coupled db m h
    simp only [memSearch, searchEndpoint, search_advertisements, hl]
    cases hc1 : (match mi with | some mp => decide (mp < 0) | none => false)
    · cases hc2 : (match ma with
          | some mp => decide (mp < 0) | none => false)
      · simp only [hc1, hc2, Bool.false_eq_true, if_false]
        rcases hs : searchRows q mi ma au db.rows with e | l <;> simp [hs]
      · simp [hc1, hc2]
    · simp [hc1]
  · rw [searchEndpoint_state, memSearch_state]
    exact h

theorem run_coupled (op : Op) (db : DB) (m : MemDB) (h : coupled db m) :
    (runMem op m).1 = (runRel op db).1 ∧
    coupled (runRel op db).2 (runMem op m).2 := by
  cases op with
  | create now raw => exact runCreate_coupled now raw db m h
  | read id => exact runRead_coupled id db m h
  | update id raw => exact runUpdate_coupled id raw db m h
  | delete id => exact runDelete_coupled id db m h
  | search q mi ma au => exact runSearch_coupled q mi ma au db m h

theorem trace_coupled (ops : List Op) : ∀ (db : DB) (m : MemDB),
    coupled db m → traceMem ops m = traceRel ops db := by
  induction ops with
  | nil => intro db m _; rfl
  | cons op ops ih =>
    intro db m h
    have hc := run_coupled op db m h
    simp only [traceMem, traceRel, hc.1, ih _ _ hc.2]

/-- Claim C9: the relational storage variant (src/main.py over src/models.py)
and the in-memory storage variant (modelled from the spec, since only the
relational one is in the source) produce identical externally observable
behavior for all five handler operations: for every sequence of operations,
run from the empty stores, both variants yield the same sequence of
responses. -/
theorem storage_variants_equivalent (ops : List Op) :
    traceMem ops MemDB.empty = traceRel ops DB.empty :=
  trace_coupled ops DB.empty MemDB.empty
    ⟨rfl, rfl, fun r hr => absurd hr (List.not_mem_nil r), List.nodup_nil⟩

end AdvertisementsAPI
